import Mathlib

/-!
# elastic_research: index bootstrap and search runner (main.go)

A shallow embedding of `main.go`.  The external search service and the local
filesystem are an explicit world `World σ`: every call takes the current world
state and returns its answer together with the next state.  Every function of
the program returns three things: how it ended (`Outcome`), the world state it
left behind, and the list of events it caused, oldest first.  An event records
the request that was made together with the answer that came back.
-/

namespace ElasticResearch


/-! ## Data model -/

/-- One byte of a Go `[]byte`. -/
abbrev Byte := Fin 256

/-- A Go `error` value: its message and whether `os.IsNotExist` holds of it. -/
structure GoError where
  msg : String
  notExist : Bool
deriving DecidableEq

/-- The part of `os.FileInfo` the program reads: `IsDir()`. -/
structure FileInfo where
  isDir : Bool
deriving DecidableEq

/-- The response of a create-index request (`elastic.IndicesCreateResult`). -/
structure IndicesCreateResult where
  acknowledged : Bool
  shardsAcknowledged : Bool
  index : String
deriving DecidableEq

/-- One search hit; the program reads only its raw source bytes (`hit.Source`). -/
structure SearchHit where
  source : List Byte
deriving DecidableEq

/-- The `elastic.MatchQuery` fields set by `elastic.NewMatchQuery(name, text)`. -/
structure MatchQuery where
  name : String
  text : String

/-- The clause lists of an `elastic.BoolQuery`, over the query type `Q`. -/
structure BoolQuery (Q : Type) where
  mustClauses : List Q
  mustNotClauses : List Q
  filterClauses : List Q
  shouldClauses : List Q

/-- The queries the program can build (`elastic.Query`). -/
inductive Query where
  | matchQuery (q : MatchQuery)
  | boolQuery (q : BoolQuery Query)

/-- The library call `elastic.NewMatchQuery(name, text)`. -/
def NewMatchQuery (name text : String) : Query :=
  Query.matchQuery { name := name, text := text }

/-- The library call `elastic.NewBoolQuery()`: a boolean query with no clause. -/
def NewBoolQuery : BoolQuery Query :=
  { mustClauses := [], mustNotClauses := [], filterClauses := [], shouldClauses := [] }

/-- The library method `(*BoolQuery).Should(queries...)`: appends to the should clauses. -/
def BoolQuery.Should (q : BoolQuery Query) (queries : List Query) : BoolQuery Query :=
  { q with shouldClauses := q.shouldClauses ++ queries }

/-- How a Go function call ends. -/
inductive Outcome (α : Type) where
  /-- The function returns `a` to its caller. -/
  | ret (a : α)
  /-- The function calls `log.Fatalf`: the message is logged and the process exits. -/
  | fatal (msg : String)
  /-- A run-time panic. -/
  | panic (msg : String)

/-- The external world: the search service behind the client library and the
local filesystem.  Each call maps the current state to an answer and a next state. -/
structure World (σ : Type) where
  /-- The call `elastic.NewClient(SetURL(ElasticsearchHost), SetSniff(false))`; `none` is success. -/
  newClient : σ → Option GoError × σ
  /-- The call `es.IndexExists(index).Do(ctx)`. -/
  indexExists : String → σ → Except GoError Bool × σ
  /-- The call `es.CreateIndex(index).Body(body).Do(ctx)`. -/
  createIndex : String → List Byte → σ → Except GoError IndicesCreateResult × σ
  /-- The call `os.Stat(filename)`. -/
  stat : String → σ → Except GoError FileInfo × σ
  /-- The call `ioutil.ReadFile(filename)`. -/
  readFile : String → σ → Except GoError (List Byte) × σ
  /-- The call `es.Search().Index(indexes...).Query(q).Pretty(pretty).Do(ctx)`;
  a success carries `res.Hits.Hits`. -/
  search : List String → Query → Bool → σ → Except GoError (List SearchHit) × σ

/-- What the program did to the world, each request with the answer it got. -/
inductive Event where
  | newClient (r : Option GoError)
  | indexExists (index : String) (r : Except GoError Bool)
  | stat (filename : String) (r : Except GoError FileInfo)
  | readFile (filename : String) (r : Except GoError (List Byte))
  | createIndex (index : String) (body : List Byte) (r : Except GoError IndicesCreateResult)
  | search (indexes : List String) (q : Query) (pretty : Bool) (r : Except GoError (List SearchHit))
  | stdout (text : String)

/-- The record type `Book` is declared outside `main.go`; the program uses its
zero value `Book{}`, `json.Unmarshal` into it and its `fmt.Println` rendering. -/
structure BookCodec (Book : Type) where
  /-- The zero value `Book{}`. -/
  zero : Book
  /-- The call `json.Unmarshal(source, &item)`: the value left in `item` and the error. -/
  unmarshal : List Byte → Book → Book × Option GoError
  /-- The text `fmt.Println(item)` writes before the newline. -/
  format : Book → String

/-! ## Constants -/

/-- The constant `ConfigFilenameTemplate = "mapping_%s.json"` applied to one
string argument, as `fmt.Sprintf` does. -/
def ConfigFilenameTemplate (key : String) : String :=
  "mapping_" ++ key ++ ".json"

/-- The configured index list. -/
def Indexes : List String := ["books"]

/-! ## The program -/

variable {σ : Type}

/-- The function `getElasticClient`. -/
def getElasticClient (W : World σ) (w : σ) : Except GoError Unit × σ × List Event :=
  match W.newClient w with
  | (some err, w1) => (.error err, w1, [Event.newClient (some err)])
  | (none, w1) => (.ok (), w1, [Event.newClient none])

/-- The function `fileExists`.  When `os.Stat` fails with an error that is not
"not exist", `info` is nil and `info.IsDir()` panics. -/
def fileExists (W : World σ) (filename : String) (w : σ) : Outcome Bool × σ × List Event :=
  match W.stat filename w with
  | (.error err, w1) =>
    if err.notExist then (.ret false, w1, [Event.stat filename (.error err)])
    else (.panic "invalid memory address or nil pointer dereference", w1,
      [Event.stat filename (.error err)])
  | (.ok info, w1) => (.ret (!info.isDir), w1, [Event.stat filename (.ok info)])

/-- The function `loadMappingFile`: the returned pair is `(raw, err)`, with
`none` for a nil slice and for a nil error. -/
def loadMappingFile (W : World σ) (key : String) (w : σ) :
    Outcome (Option (List Byte) × Option GoError) × σ × List Event :=
  let entityMappingFile := ConfigFilenameTemplate key
  match fileExists W entityMappingFile w with
  | (.ret true, w1, ev1) =>
    match W.readFile entityMappingFile w1 with
    | (.error err, w2) =>
      (.ret (none, some err), w2, ev1 ++ [Event.readFile entityMappingFile (.error err)])
    | (.ok raw, w2) =>
      (.ret (some raw, none), w2, ev1 ++ [Event.readFile entityMappingFile (.ok raw)])
  | (.ret false, w1, ev1) => (.ret (none, none), w1, ev1)
  | (.fatal m, w1, ev1) => (.fatal m, w1, ev1)
  | (.panic m, w1, ev1) => (.panic m, w1, ev1)

/-- The conversion `string(mapping)` of a byte slice: a nil slice gives the empty string. -/
def goString : Option (List Byte) → List Byte
  | none => []
  | some raw => raw

/-- One pass of the `for _, index := range Indexes` loop of `elasticInit`.
The first component is `none` when the loop goes on to the next index and
`some out` when the pass ends `elasticInit` with `out`. -/
def elasticInitBody (W : World σ) (index : String) (w : σ) :
    Option (Outcome (Option GoError)) × σ × List Event :=
  match W.indexExists index w with
  | (.error err, w1) => (some (.ret (some err)), w1, [Event.indexExists index (.error err)])
  | (.ok true, w1) =>
    (none, w1, [Event.indexExists index (.ok true),
      Event.stdout ("Index [" ++ index ++ "]: STARTED\n")])
  | (.ok false, w1) =>
    let ev1 := [Event.indexExists index (.ok false),
      Event.stdout ("Initializing Index [" ++ index ++ "] with mapping...")]
    match loadMappingFile W index w1 with
    | (.ret (_, some err), w2, ev2) => (some (.ret (some err)), w2, ev1 ++ ev2)
    | (.ret (mapping, none), w2, ev2) =>
      match W.createIndex index (goString mapping) w2 with
      | (.error err, w3) =>
        (some (.fatal ("Error creating the index: " ++ err.msg)), w3,
          ev1 ++ ev2 ++ [Event.createIndex index (goString mapping) (.error err)])
      | (.ok createIndex, w3) =>
        if !createIndex.acknowledged then
          (some (.fatal ("Error creating the index: " ++ createIndex.index)), w3,
            ev1 ++ ev2 ++ [Event.createIndex index (goString mapping) (.ok createIndex)])
        else
          (none, w3,
            ev1 ++ ev2 ++ [Event.createIndex index (goString mapping) (.ok createIndex),
              Event.stdout "Index created successfully\n"])
    | (.fatal m, w2, ev2) => (some (.fatal m), w2, ev1 ++ ev2)
    | (.panic m, w2, ev2) => (some (.panic m), w2, ev1 ++ ev2)

/-- The `for _, index := range Indexes` loop of `elasticInit`. -/
def elasticInitLoop (W : World σ) : List String → σ →
    Option (Outcome (Option GoError)) × σ × List Event
  | [], w => (none, w, [])
  | index :: rest, w =>
    match elasticInitBody W index w with
    | (some out, w1, ev1) => (some out, w1, ev1)
    | (none, w1, ev1) =>
      match elasticInitLoop W rest w1 with
      | (r, w2, ev2) => (r, w2, ev1 ++ ev2)

/-- The function `elasticInit`, over the index list `indexes`; the returned
value is its `error` result, `none` for nil. -/
def elasticInit (W : World σ) (indexes : List String) (w : σ) :
    Outcome (Option GoError) × σ × List Event :=
  match getElasticClient W w with
  | (.error err, w1, ev0) => (.fatal ("Error creating the client: " ++ err.msg), w1, ev0)
  | (.ok _, w1, ev0) =>
    match elasticInitLoop W indexes w1 with
    | (some out, w2, ev) => (out, w2, ev0 ++ ev)
    | (none, w2, ev) => (.ret none, w2, ev0 ++ ev)

/-- The query `shouldClause` built by `searchElastic`. -/
def shouldClause : BoolQuery Query :=
  NewBoolQuery.Should [NewMatchQuery "author" "Guilherme Gonçalves",
    NewMatchQuery "author" "Zachary Tanga"]

/-- The body of the `for _, hit := range res.Hits.Hits` loop of `searchElastic`:
the line `fmt.Println(item)` writes after `json.Unmarshal(hit.Source, &item)`,
whose error is dropped. -/
def hitLine {Book : Type} (C : BookCodec Book) (hit : SearchHit) : String :=
  let item := C.zero
  let item := (C.unmarshal hit.source item).1
  C.format item ++ "\n"

/-- The `for _, hit := range res.Hits.Hits` loop of `searchElastic`. -/
def printHits {Book : Type} (C : BookCodec Book) : List SearchHit → List Event
  | [] => []
  | hit :: rest => Event.stdout (hitLine C hit) :: printHits C rest

/-- The function `searchElastic`, over the index list `indexes`. -/
def searchElastic {Book : Type} (C : BookCodec Book) (W : World σ) (indexes : List String)
    (w : σ) : Outcome Unit × σ × List Event :=
  match getElasticClient W w with
  | (.error err, w1, ev0) => (.fatal ("Error creating the client: " ++ err.msg), w1, ev0)
  | (.ok _, w1, ev0) =>
    match W.search indexes (Query.boolQuery shouldClause) true w1 with
    | (.error err, w2) =>
      (.fatal ("Error searching: " ++ err.msg), w2,
        ev0 ++ [Event.search indexes (Query.boolQuery shouldClause) true (.error err)])
    | (.ok hits, w2) =>
      (.ret (), w2,
        ev0 ++ [Event.search indexes (Query.boolQuery shouldClause) true (.ok hits)]
          ++ printHits C hits)

/-! ## Reading a trace -/

/-- The create-index requests of a trace, oldest first: index name and body. -/
def createRequests : List Event → List (String × List Byte)
  | [] => []
  | Event.createIndex index body _ :: rest => (index, body) :: createRequests rest
  | _ :: rest => createRequests rest

/-- The filesystem accesses of a trace (what a mapping load does), oldest first. -/
def fileAccesses : List Event → List String
  | [] => []
  | Event.stat filename _ :: rest => filename :: fileAccesses rest
  | Event.readFile filename _ :: rest => filename :: fileAccesses rest
  | _ :: rest => fileAccesses rest

/-- The texts written to standard output, oldest first. -/
def stdoutLines : List Event → List String
  | [] => []
  | Event.stdout text :: rest => text :: stdoutLines rest
  | _ :: rest => stdoutLines rest

/-- The search requests of a trace, oldest first: index list, query, pretty flag. -/
def searchRequests : List Event → List (List String × Query × Bool)
  | [] => []
  | Event.search indexes q pretty _ :: rest => (indexes, q, pretty) :: searchRequests rest
  | _ :: rest => searchRequests rest

/-- Whether the answer to a create-index request is a failure of the request
or a response that is not acknowledged. -/
def createRejected : Except GoError IndicesCreateResult → Bool
  | .error _ => true
  | .ok res => !res.acknowledged

/-- The text `elasticInit` puts after "Error creating the index: " for a
rejected create-index answer: the error, or the index named in the response. -/
def rejectionText : Except GoError IndicesCreateResult → String
  | .error err => err.msg
  | .ok res => res.index

/-- The way `elasticInit` ends when this event is a failed existence query or a
rejected create-index request; `none` for every other event. -/
def Event.verdict : Event → Option (Outcome (Option GoError))
  | Event.indexExists _ (.error err) => some (.ret (some err))
  | Event.createIndex _ _ r =>
    if createRejected r then some (.fatal ("Error creating the index: " ++ rejectionText r))
    else none
  | _ => none

/-! ## Fixtures: a small service and filesystem -/

/-- A small service and filesystem for running the program on concrete inputs.
The world state is the list of indexes that exist on the service. -/
structure Fixture where
  /-- The regular files of the working directory, by name. -/
  files : List (String × List Byte)
  /-- When set, every `os.Stat` fails with this error. -/
  statError : Option GoError
  /-- When set, every `ioutil.ReadFile` fails with this error. -/
  readError : Option GoError
  /-- When set, every existence query fails with this error. -/
  existsError : Option GoError
  /-- Whether the service acknowledges a create-index request. -/
  createAck : Bool
  /-- The hits every search returns. -/
  hits : List SearchHit

/-- The error of a system call `op` on a name that does not exist (ENOENT). -/
def noSuchFile (op filename : String) : GoError :=
  { msg := op ++ " " ++ filename ++ ": no such file or directory", notExist := true }

/-- The world of a fixture. -/
def Fixture.world (f : Fixture) : World (List String) where
  newClient := fun w => (none, w)
  indexExists := fun index w =>
    match f.existsError with
    | some err => (.error err, w)
    | none => (.ok (decide (index ∈ w)), w)
  createIndex := fun index _ w =>
    if f.createAck then
      (.ok { acknowledged := true, shardsAcknowledged := true, index := index }, index :: w)
    else (.ok { acknowledged := false, shardsAcknowledged := false, index := index }, w)
  stat := fun filename w =>
    match f.statError with
    | some err => (.error err, w)
    | none =>
      match f.files.lookup filename with
      | some _ => (.ok { isDir := false }, w)
      | none => (.error (noSuchFile "stat" filename), w)
  readFile := fun filename w =>
    match f.readError with
    | some err => (.error err, w)
    | none =>
      match f.files.lookup filename with
      | some raw => (.ok raw, w)
      | none => (.error (noSuchFile "open" filename), w)
  search := fun _ _ _ w => (.ok f.hits, w)

/-- A fixture with no file, an acknowledging service and no hit. -/
def emptyFixture : Fixture :=
  { files := [], statError := none, readError := none, existsError := none,
    createAck := true, hits := [] }

/-- A fixture whose working directory holds `mapping_books.json` with four bytes. -/
def booksFixture : Fixture :=
  { emptyFixture with files := [("mapping_books.json", [123, 10, 125, 10])] }

/-- A fixture whose working directory holds `mapping_bookshelf.json`, nine bytes
with a byte above 127 among them, and no `mapping_books.json`. -/
def shelfFixture : Fixture :=
  { emptyFixture with
    files := [("mapping_bookshelf.json", [123, 34, 97, 34, 58, 49, 125, 10, 200])] }

/-- A fixture where `os.Stat` is refused (the directory cannot be searched). -/
def deniedFixture : Fixture :=
  { booksFixture with
    statError := some { msg := "stat mapping_books.json: permission denied", notExist := false } }

/-! ## How a run of the index initializer stops -/

/-- No event of the list is a failed existence query or a rejected create-index request. -/
def Quiet (evs : List Event) : Prop :=
  ∀ ev ∈ evs, Event.verdict ev = none

/-- Wherever a failed existence query or a rejected create-index request sits
in the list, it is the last event and `out` is the ending it commands. -/
def Settled (out : Option (Outcome (Option GoError))) (evs : List Event) : Prop :=
  ∀ (pre : List Event) (ev : Event) (post : List Event) (v : Outcome (Option GoError)),
    evs = pre ++ ev :: post → Event.verdict ev = some v → post = [] ∧ out = some v

/-- The two events that open a loop pass for an index the service reports absent. -/
def absentHead (index : String) : List Event :=
  [Event.indexExists index (.ok false),
   Event.stdout ("Initializing Index [" ++ index ++ "] with mapping...")]

/-- The events of a loop over indexes that all exist: per index, the existence
query answered "exists" and the line "Index [name]: STARTED". -/
def startedTrace : List String → List Event
  | [] => []
  | index :: rest =>
    Event.indexExists index (.ok true)
      :: Event.stdout ("Index [" ++ index ++ "]: STARTED\n") :: startedTrace rest

/-- The events of a loop pass that reaches the create-index request. -/
def createPass (index : String) (evsL : List Event) (body : List Byte)
    (r : Except GoError IndicesCreateResult) : List Event :=
  absentHead index ++ evsL ++
    Event.createIndex index body r ::
      (if createRejected r then [] else [Event.stdout "Index created successfully\n"])

/-- A fixture whose service does not acknowledge a create-index request. -/
def unackFixture : Fixture :=
  { booksFixture with createAck := false }

/-- A fixture whose service fails every existence query. -/
def downFixture : Fixture :=
  { booksFixture with existsError := some { msg := "connection refused", notExist := false } }

/-- The service state a first run of `elasticInit` leaves behind when it starts
with no index, finds `mapping_books.json` and the service acknowledges. -/
def afterFirstRun : List String :=
  (elasticInit booksFixture.world Indexes []).2.1

/-- Modelled from the spec: the record type `Book`, declared outside `main.go`,
with the title and author fields the spec names. -/
structure Book where
  title : String
  author : String
deriving DecidableEq

/-- The bytes of an ASCII text. -/
def bytesOf (text : String) : List Byte :=
  text.data.map (fun c => Fin.ofNat c.toNat)

/-- A stand-in for `json.Unmarshal` into a `Book` that knows three sources: the
empty object leaves the record as it is, an object with an author sets the
author, and the empty input is rejected with the record untouched.  Every other
source is rejected as well. -/
def sampleUnmarshal (source : List Byte) (item : Book) : Book × Option GoError :=
  if source = bytesOf "\x7b\x7d" then (item, none)
  else if source = bytesOf "\x7b\"author\":\"Zachary Tanga\"\x7d" then
    ({ item with author := "Zachary Tanga" }, none)
  else if source = [] then
    (item, some { msg := "unexpected end of JSON input", notExist := false })
  else (item, some { msg := "json: cannot unmarshal into Go value of type main.Book",
                     notExist := false })

/-- The `Book` codec of the fixtures; a struct of two strings prints as
`{title author}`. -/
def sampleCodec : BookCodec Book where
  zero := { title := "", author := "" }
  unmarshal := sampleUnmarshal
  format := fun item => "\x7b" ++ item.title ++ " " ++ item.author ++ "\x7d"

/-- A fixture whose search returns one hit with an empty source. -/
def badHitFixture : Fixture :=
  { emptyFixture with hits := [{ source := [] }] }

/-- A fixture whose search returns a good hit, a hit with an empty source, and
another good hit. -/
def mixedHitsFixture : Fixture :=
  { emptyFixture with
    hits := [{ source := bytesOf "\x7b\"author\":\"Zachary Tanga\"\x7d" },
             { source := [] },
             { source := bytesOf "\x7b\x7d" }] }

/-! ## The mapping loader -/

/-- A file test that answers "does not exist" ends the load with nothing read. -/
theorem loadMappingFile_not_exist (W : World σ) (key : String) (w w1 : σ) (err : GoError)
    (hstat : W.stat (ConfigFilenameTemplate key) w = (.error err, w1))
    (habsent : err.notExist = true) :
    loadMappingFile W key w
      = (.ret (none, none), w1, [Event.stat (ConfigFilenameTemplate key) (.error err)]) := by
  simp [loadMappingFile, fileExists, hstat, habsent]

/-- C3: when `os.Stat` of the file `"mapping_" ++ key ++ ".json"` answers "does
not exist", `loadMappingFile key` returns a nil byte slice and a nil error, after
that one `os.Stat` and without reading anything. -/
theorem loadMappingFile_absent (W : World σ) (key : String) (w w1 : σ) (err : GoError)
    (hstat : W.stat ("mapping_" ++ key ++ ".json") w = (.error err, w1))
    (habsent : err.notExist = true) :
    loadMappingFile W key w
      = (.ret (none, none), w1, [Event.stat ("mapping_" ++ key ++ ".json") (.error err)]) :=
  loadMappingFile_not_exist W key w w1 err hstat habsent

theorem loadMappingFile_absent_witness :
    loadMappingFile shelfFixture.world "books" []
      = (.ret (none, none), [],
          [Event.stat "mapping_books.json"
            (.error { msg := "stat mapping_books.json: no such file or directory",
                      notExist := true })]) :=
  loadMappingFile_absent shelfFixture.world "books" [] []
    { msg := "stat mapping_books.json: no such file or directory", notExist := true }
    (by rfl) (by rfl)

/-- A file test that passes, followed by a read that succeeds, returns what was read. -/
theorem loadMappingFile_read_ok (W : World σ) (key : String) (w w1 w2 : σ) (info : FileInfo)
    (b : List Byte)
    (hstat : W.stat (ConfigFilenameTemplate key) w = (.ok info, w1))
    (hfile : info.isDir = false)
    (hread : W.readFile (ConfigFilenameTemplate key) w1 = (.ok b, w2)) :
    loadMappingFile W key w
      = (.ret (some b, none), w2,
          [Event.stat (ConfigFilenameTemplate key) (.ok info),
           Event.readFile (ConfigFilenameTemplate key) (.ok b)]) := by
  simp [loadMappingFile, fileExists, hstat, hfile, hread]

/-- C4: when the file named `"mapping_" ++ key ++ ".json"` is not a directory and
reading it gives the bytes `b`, `loadMappingFile key` returns exactly `b`, byte
for byte, and a nil error; all it does is one `os.Stat` and one
`ioutil.ReadFile`, both of that very file name. -/
theorem loadMappingFile_roundtrip (W : World σ) (key : String) (w w1 w2 : σ) (info : FileInfo)
    (b : List Byte)
    (hstat : W.stat ("mapping_" ++ key ++ ".json") w = (.ok info, w1))
    (hfile : info.isDir = false)
    (hread : W.readFile ("mapping_" ++ key ++ ".json") w1 = (.ok b, w2)) :
    loadMappingFile W key w
      = (.ret (some b, none), w2,
          [Event.stat ("mapping_" ++ key ++ ".json") (.ok info),
           Event.readFile ("mapping_" ++ key ++ ".json") (.ok b)]) :=
  loadMappingFile_read_ok W key w w1 w2 info b hstat hfile hread

theorem loadMappingFile_roundtrip_witness :
    loadMappingFile shelfFixture.world "bookshelf" []
      = (.ret (some [123, 34, 97, 34, 58, 49, 125, 10, 200], none), [],
          [Event.stat "mapping_bookshelf.json" (.ok { isDir := false }),
           Event.readFile "mapping_bookshelf.json"
             (.ok [123, 34, 97, 34, 58, 49, 125, 10, 200])]) :=
  loadMappingFile_roundtrip shelfFixture.world "bookshelf" [] [] [] { isDir := false }
    [123, 34, 97, 34, 58, 49, 125, 10, 200] (by rfl) (by rfl) (by rfl)

/-- A read failure is returned: when the file test passes and `ioutil.ReadFile`
fails with `err`, `loadMappingFile` returns a nil slice and `err`. -/
theorem loadMappingFile_read_error (W : World σ) (key : String) (w w1 w2 : σ) (info : FileInfo)
    (err : GoError)
    (hstat : W.stat (ConfigFilenameTemplate key) w = (.ok info, w1))
    (hfile : info.isDir = false)
    (hread : W.readFile (ConfigFilenameTemplate key) w1 = (.error err, w2)) :
    loadMappingFile W key w
      = (.ret (none, some err), w2,
          [Event.stat (ConfigFilenameTemplate key) (.ok info),
           Event.readFile (ConfigFilenameTemplate key) (.error err)]) := by
  simp [loadMappingFile, fileExists, hstat, hfile, hread]

/-- A failure of `os.Stat` other than "does not exist" makes `fileExists`, and
with it `loadMappingFile`, panic: nothing is returned to the caller. -/
theorem loadMappingFile_stat_error (W : World σ) (key : String) (w w1 : σ) (err : GoError)
    (hstat : W.stat (ConfigFilenameTemplate key) w = (.error err, w1))
    (hother : err.notExist = false) :
    loadMappingFile W key w
      = (.panic "invalid memory address or nil pointer dereference", w1,
          [Event.stat (ConfigFilenameTemplate key) (.error err)]) := by
  simp [loadMappingFile, fileExists, hstat, hother]

/-- C8: with `os.Stat` of `mapping_books.json` failing with "permission denied",
`loadMappingFile "books"` panics in `fileExists` instead of returning an error. -/
theorem loadMappingFile_denied_panics :
    loadMappingFile deniedFixture.world "books" []
      = (.panic "invalid memory address or nil pointer dereference", [],
          [Event.stat "mapping_books.json"
            (.error { msg := "stat mapping_books.json: permission denied", notExist := false })]) := by
  rfl

/-! ## The index initializer -/

theorem quiet_settled (out : Option (Outcome (Option GoError))) (evs : List Event)
    (hq : Quiet evs) : Settled out evs := by
  intro pre ev post v hsplit hv
  have hmem : ev ∈ evs := by rw [hsplit]; simp
  rw [hq ev hmem] at hv
  cases hv

theorem settled_singleton (out : Option (Outcome (Option GoError))) (ev : Event)
    (h : ∀ v, Event.verdict ev = some v → out = some v) : Settled out [ev] := by
  intro pre e post v hsplit hv
  cases pre with
  | nil =>
    simp only [List.nil_append, List.cons.injEq] at hsplit
    obtain ⟨he, hpost⟩ := hsplit
    subst he
    exact ⟨hpost.symm, h v hv⟩
  | cons a pre1 =>
    simp at hsplit

theorem quiet_append_settled (out : Option (Outcome (Option GoError))) (q evs : List Event)
    (hq : Quiet q) (hs : Settled out evs) : Settled out (q ++ evs) := by
  induction q with
  | nil => simpa using hs
  | cons a q1 ih =>
    intro pre ev post v hsplit hv
    cases pre with
    | nil =>
      simp only [List.cons_append, List.nil_append, List.cons.injEq] at hsplit
      have ha : Event.verdict a = none := hq a (by simp)
      rw [hsplit.1, hv] at ha
      cases ha
    | cons b pre1 =>
      simp only [List.cons_append, List.cons.injEq] at hsplit
      exact ih (fun e he => hq e (by simp [he])) pre1 ev post v hsplit.2 hv

theorem quiet_append (q1 q2 : List Event) (h1 : Quiet q1) (h2 : Quiet q2) : Quiet (q1 ++ q2) := by
  intro ev hev
  rcases List.mem_append.mp hev with h | h
  · exact h1 ev h
  · exact h2 ev h

/-- A mapping load only touches the filesystem: its events are one `os.Stat`,
followed by one `ioutil.ReadFile` when the file test passed. -/
theorem loadMappingFile_events (W : World σ) (key : String) (w : σ) :
    (∃ r, (loadMappingFile W key w).2.2 = [Event.stat (ConfigFilenameTemplate key) r]) ∨
    (∃ r1 r2, (loadMappingFile W key w).2.2
      = [Event.stat (ConfigFilenameTemplate key) r1,
         Event.readFile (ConfigFilenameTemplate key) r2]) := by
  rcases hstat : W.stat (ConfigFilenameTemplate key) w with ⟨r, w1⟩
  cases r with
  | error err =>
    cases hne : err.notExist <;> simp [loadMappingFile, fileExists, hstat, hne]
  | ok info =>
    cases hdir : info.isDir
    · rcases hread : W.readFile (ConfigFilenameTemplate key) w1 with ⟨r2, w2⟩
      cases r2 <;> simp [loadMappingFile, fileExists, hstat, hdir, hread]
    · simp [loadMappingFile, fileExists, hstat, hdir]

theorem loadMappingFile_quiet (W : World σ) (key : String) (w : σ) :
    Quiet (loadMappingFile W key w).2.2 := by
  rcases loadMappingFile_events W key w with ⟨r, h⟩ | ⟨r1, r2, h⟩ <;>
    (rw [h]; intro ev hev; simp at hev; rcases hev with rfl | rfl <;> rfl)

theorem loadMappingFile_no_create (W : World σ) (key : String) (w : σ) :
    createRequests (loadMappingFile W key w).2.2 = [] := by
  rcases loadMappingFile_events W key w with ⟨r, h⟩ | ⟨r1, r2, h⟩ <;>
    (rw [h]; rfl)

theorem elasticInitBody_exists_error (W : World σ) (index : String) (w w1 : σ) (err : GoError)
    (hex : W.indexExists index w = (.error err, w1)) :
    elasticInitBody W index w
      = (some (.ret (some err)), w1, [Event.indexExists index (.error err)]) := by
  simp [elasticInitBody, hex]

theorem elasticInitBody_started (W : World σ) (index : String) (w w1 : σ)
    (hex : W.indexExists index w = (.ok true, w1)) :
    elasticInitBody W index w
      = (none, w1, [Event.indexExists index (.ok true),
          Event.stdout ("Index [" ++ index ++ "]: STARTED\n")]) := by
  simp [elasticInitBody, hex]

theorem elasticInitBody_load_error (W : World σ) (index : String) (w w1 w2 : σ)
    (raw : Option (List Byte)) (err : GoError) (ev2 : List Event)
    (hex : W.indexExists index w = (.ok false, w1))
    (hload : loadMappingFile W index w1 = (.ret (raw, some err), w2, ev2)) :
    elasticInitBody W index w = (some (.ret (some err)), w2, absentHead index ++ ev2) := by
  simp [elasticInitBody, hex, hload, absentHead]

theorem elasticInitBody_load_fatal (W : World σ) (index : String) (w w1 w2 : σ)
    (m : String) (ev2 : List Event)
    (hex : W.indexExists index w = (.ok false, w1))
    (hload : loadMappingFile W index w1 = (.fatal m, w2, ev2)) :
    elasticInitBody W index w = (some (.fatal m), w2, absentHead index ++ ev2) := by
  simp [elasticInitBody, hex, hload, absentHead]

theorem elasticInitBody_load_panic (W : World σ) (index : String) (w w1 w2 : σ)
    (m : String) (ev2 : List Event)
    (hex : W.indexExists index w = (.ok false, w1))
    (hload : loadMappingFile W index w1 = (.panic m, w2, ev2)) :
    elasticInitBody W index w = (some (.panic m), w2, absentHead index ++ ev2) := by
  simp [elasticInitBody, hex, hload, absentHead]

theorem elasticInitBody_create_error (W : World σ) (index : String) (w w1 w2 w3 : σ)
    (raw : Option (List Byte)) (err : GoError) (ev2 : List Event)
    (hex : W.indexExists index w = (.ok false, w1))
    (hload : loadMappingFile W index w1 = (.ret (raw, none), w2, ev2))
    (hcreate : W.createIndex index (goString raw) w2 = (.error err, w3)) :
    elasticInitBody W index w
      = (some (.fatal ("Error creating the index: " ++ err.msg)), w3,
          absentHead index ++ ev2 ++ [Event.createIndex index (goString raw) (.error err)]) := by
  simp [elasticInitBody, hex, hload, hcreate, absentHead]

theorem elasticInitBody_create_unacknowledged (W : World σ) (index : String) (w w1 w2 w3 : σ)
    (raw : Option (List Byte)) (res : IndicesCreateResult) (ev2 : List Event)
    (hex : W.indexExists index w = (.ok false, w1))
    (hload : loadMappingFile W index w1 = (.ret (raw, none), w2, ev2))
    (hcreate : W.createIndex index (goString raw) w2 = (.ok res, w3))
    (hack : res.acknowledged = false) :
    elasticInitBody W index w
      = (some (.fatal ("Error creating the index: " ++ res.index)), w3,
          absentHead index ++ ev2 ++ [Event.createIndex index (goString raw) (.ok res)]) := by
  simp [elasticInitBody, hex, hload, hcreate, hack, absentHead]

theorem elasticInitBody_created (W : World σ) (index : String) (w w1 w2 w3 : σ)
    (raw : Option (List Byte)) (res : IndicesCreateResult) (ev2 : List Event)
    (hex : W.indexExists index w = (.ok false, w1))
    (hload : loadMappingFile W index w1 = (.ret (raw, none), w2, ev2))
    (hcreate : W.createIndex index (goString raw) w2 = (.ok res, w3))
    (hack : res.acknowledged = true) :
    elasticInitBody W index w
      = (none, w3,
          absentHead index ++ ev2 ++ [Event.createIndex index (goString raw) (.ok res),
            Event.stdout "Index created successfully\n"]) := by
  simp [elasticInitBody, hex, hload, hcreate, hack, absentHead]

theorem absentHead_quiet (index : String) : Quiet (absentHead index) := by
  intro ev hev
  simp [absentHead] at hev
  rcases hev with rfl | rfl <;> rfl

/-- One loop pass: a failed existence query or rejected create-index request
can only be its last event and then fixes how the pass ends; a pass after
which the loop goes on has neither. -/
theorem elasticInitBody_settled (W : World σ) (index : String) (w : σ) :
    Settled (elasticInitBody W index w).1 (elasticInitBody W index w).2.2 ∧
    ((elasticInitBody W index w).1 = none → Quiet (elasticInitBody W index w).2.2) := by
  rcases hex : W.indexExists index w with ⟨r, w1⟩
  cases r with
  | error err =>
    rw [elasticInitBody_exists_error W index w w1 err hex]
    refine ⟨settled_singleton _ _ ?_, ?_⟩
    · intro v hv
      simpa [Event.verdict] using hv
    · intro h
      cases h
  | ok b =>
    cases b with
    | true =>
      rw [elasticInitBody_started W index w w1 hex]
      have hq : Quiet [Event.indexExists index (.ok true),
          Event.stdout ("Index [" ++ index ++ "]: STARTED\n")] := by
        intro ev hev
        simp at hev
        rcases hev with rfl | rfl <;> rfl
      exact ⟨quiet_settled _ _ hq, fun _ => hq⟩
    | false =>
      rcases hload : loadMappingFile W index w1 with ⟨o, w2, ev2⟩
      have hq2 : Quiet ev2 := by
        have h := loadMappingFile_quiet W index w1
        rw [hload] at h
        exact h
      have hq12 : Quiet (absentHead index ++ ev2) := quiet_append _ _ (absentHead_quiet index) hq2
      cases o with
      | fatal m =>
        rw [elasticInitBody_load_fatal W index w w1 w2 m ev2 hex hload]
        exact ⟨quiet_settled _ _ hq12, fun _ => hq12⟩
      | panic m =>
        rw [elasticInitBody_load_panic W index w w1 w2 m ev2 hex hload]
        exact ⟨quiet_settled _ _ hq12, fun _ => hq12⟩
      | ret p =>
        obtain ⟨raw, oerr⟩ := p
        cases oerr with
        | some err =>
          rw [elasticInitBody_load_error W index w w1 w2 raw err ev2 hex hload]
          exact ⟨quiet_settled _ _ hq12, fun _ => hq12⟩
        | none =>
          rcases hcreate : W.createIndex index (goString raw) w2 with ⟨rc, w3⟩
          cases rc with
          | error err =>
            rw [elasticInitBody_create_error W index w w1 w2 w3 raw err ev2 hex hload hcreate]
            refine ⟨quiet_append_settled _ _ _ hq12 (settled_singleton _ _ ?_), ?_⟩
            · intro v hv
              simpa [Event.verdict, createRejected, rejectionText] using hv
            · intro h
              cases h
          | ok res =>
            cases hack : res.acknowledged with
            | false =>
              rw [elasticInitBody_create_unacknowledged W index w w1 w2 w3 raw res ev2
                hex hload hcreate hack]
              refine ⟨quiet_append_settled _ _ _ hq12 (settled_singleton _ _ ?_), ?_⟩
              · intro v hv
                simpa [Event.verdict, createRejected, rejectionText, hack] using hv
              · intro h
                cases h
            | true =>
              rw [elasticInitBody_created W index w w1 w2 w3 raw res ev2 hex hload hcreate hack]
              have hq3 : Quiet [Event.createIndex index (goString raw) (.ok res),
                  Event.stdout "Index created successfully\n"] := by
                intro ev hev
                simp at hev
                rcases hev with rfl | rfl
                · simp [Event.verdict, createRejected, hack]
                · rfl
              have hq : Quiet (absentHead index ++ ev2 ++
                  [Event.createIndex index (goString raw) (.ok res),
                    Event.stdout "Index created successfully\n"]) :=
                quiet_append _ _ hq12 hq3
              exact ⟨quiet_settled _ _ hq, fun _ => hq⟩

theorem elasticInitLoop_cons_continue (W : World σ) (index : String) (rest : List String)
    (w w1 : σ) (ev1 : List Event) (hbody : elasticInitBody W index w = (none, w1, ev1)) :
    elasticInitLoop W (index :: rest) w
      = ((elasticInitLoop W rest w1).1, (elasticInitLoop W rest w1).2.1,
          ev1 ++ (elasticInitLoop W rest w1).2.2) := by
  simp [elasticInitLoop, hbody]

theorem elasticInitLoop_cons_stop (W : World σ) (index : String) (rest : List String)
    (w w1 : σ) (out : Outcome (Option GoError)) (ev1 : List Event)
    (hbody : elasticInitBody W index w = (some out, w1, ev1)) :
    elasticInitLoop W (index :: rest) w = (some out, w1, ev1) := by
  simp [elasticInitLoop, hbody]

/-- The whole loop: a failed existence query or rejected create-index request
can only be its last event and then fixes how the loop ends; a loop that runs
to the end of the list has neither. -/
theorem elasticInitLoop_settled (W : World σ) (indexes : List String) (w : σ) :
    Settled (elasticInitLoop W indexes w).1 (elasticInitLoop W indexes w).2.2 ∧
    ((elasticInitLoop W indexes w).1 = none → Quiet (elasticInitLoop W indexes w).2.2) := by
  induction indexes generalizing w with
  | nil =>
    have hq : Quiet ([] : List Event) := fun ev hev => by cases hev
    exact ⟨quiet_settled _ _ hq, fun _ => hq⟩
  | cons index rest ih =>
    have hb := elasticInitBody_settled W index w
    rcases hbody : elasticInitBody W index w with ⟨o, w1, ev1⟩
    rw [hbody] at hb
    cases o with
    | some out =>
      rw [elasticInitLoop_cons_stop W index rest w w1 out ev1 hbody]
      exact hb
    | none =>
      rw [elasticInitLoop_cons_continue W index rest w w1 ev1 hbody]
      have hq1 : Quiet ev1 := hb.2 rfl
      exact ⟨quiet_append_settled _ _ _ hq1 (ih w1).1,
        fun h => quiet_append _ _ hq1 ((ih w1).2 h)⟩

/-- In a run of `elasticInit`, a failed existence query or a rejected
create-index request is the last event of the run, and the run ends the way
that event commands. -/
theorem elasticInit_settled (W : World σ) (indexes : List String) (w : σ)
    (pre : List Event) (ev : Event) (post : List Event) (v : Outcome (Option GoError))
    (hsplit : (elasticInit W indexes w).2.2 = pre ++ ev :: post)
    (hv : Event.verdict ev = some v) :
    post = [] ∧ (elasticInit W indexes w).1 = v := by
  rcases hclient : W.newClient w with ⟨r, w1⟩
  cases r with
  | some err =>
    have hrun : elasticInit W indexes w
        = (.fatal ("Error creating the client: " ++ err.msg), w1,
            [Event.newClient (some err)]) := by
      simp [elasticInit, getElasticClient, hclient]
    rw [hrun] at hsplit
    have hq : Quiet [Event.newClient (some err)] := by
      intro e he
      simp at he
      subst he
      rfl
    have hsplit1 : [Event.newClient (some err)] = pre ++ ev :: post := hsplit
    have hmem : ev ∈ [Event.newClient (some err)] := by rw [hsplit1]; simp
    rw [hq ev hmem] at hv
    cases hv
  | none =>
    have hq0 : Quiet [Event.newClient none] := by
      intro e he
      simp at he
      subst he
      rfl
    have hl := elasticInitLoop_settled W indexes w1
    rcases hloop : elasticInitLoop W indexes w1 with ⟨o, w2, evs⟩
    rw [hloop] at hl
    cases o with
    | some out =>
      have hrun : elasticInit W indexes w = (out, w2, [Event.newClient none] ++ evs) := by
        simp [elasticInit, getElasticClient, hclient, hloop]
      rw [hrun] at hsplit
      have h := quiet_append_settled _ _ _ hq0 hl.1 pre ev post v hsplit hv
      rw [hrun]
      exact ⟨h.1, by simpa using h.2⟩
    | none =>
      have hrun : elasticInit W indexes w = (.ret none, w2, [Event.newClient none] ++ evs) := by
        simp [elasticInit, getElasticClient, hclient, hloop]
      rw [hrun] at hsplit
      have hq : Quiet ([Event.newClient none] ++ evs) := quiet_append _ _ hq0 (hl.2 rfl)
      have hsplit1 : [Event.newClient none] ++ evs = pre ++ ev :: post := hsplit
      have hmem : ev ∈ [Event.newClient none] ++ evs := by rw [hsplit1]; simp
      rw [hq ev hmem] at hv
      cases hv

/-- Every loop pass opens with the existence query for its index. -/
theorem elasticInitBody_head (W : World σ) (index : String) (w : σ) :
    ∃ tl, (elasticInitBody W index w).2.2
      = Event.indexExists index (W.indexExists index w).1 :: tl := by
  rcases hex : W.indexExists index w with ⟨r, w1⟩
  rcases r with err | _ | _
  · simp [elasticInitBody, hex]
  · simp only [elasticInitBody, hex]
    repeat' split
    all_goals simp
  · simp [elasticInitBody, hex]

theorem elasticInitLoop_cons_head (W : World σ) (index : String) (rest : List String) (w : σ) :
    Event.indexExists index (W.indexExists index w).1
      ∈ (elasticInitLoop W (index :: rest) w).2.2 := by
  obtain ⟨tl, htl⟩ := elasticInitBody_head W index w
  rcases hbody : elasticInitBody W index w with ⟨o, w1, ev1⟩
  rw [hbody] at htl
  have hev1 : ev1 = Event.indexExists index (W.indexExists index w).1 :: tl := htl
  cases o with
  | some out =>
    rw [elasticInitLoop_cons_stop W index rest w w1 out ev1 hbody, hev1]
    simp
  | none =>
    rw [elasticInitLoop_cons_continue W index rest w w1 ev1 hbody, hev1]
    simp

theorem startedTrace_no_create (indexes : List String) :
    createRequests (startedTrace indexes) = [] := by
  induction indexes with
  | nil => rfl
  | cons index rest ih => simpa [startedTrace, createRequests] using ih

theorem startedTrace_no_file (indexes : List String) :
    fileAccesses (startedTrace indexes) = [] := by
  induction indexes with
  | nil => rfl
  | cons index rest ih => simpa [startedTrace, fileAccesses] using ih

/-- When every existence query of the loop is answered "exists", the loop runs
to the end of the list and does nothing but query and report. -/
theorem elasticInitLoop_all_exist (W : World σ) (indexes : List String) (w : σ)
    (hexists : ∀ index r, Event.indexExists index r ∈ (elasticInitLoop W indexes w).2.2 →
      r = .ok true) :
    (elasticInitLoop W indexes w).1 = none ∧
    (elasticInitLoop W indexes w).2.2 = startedTrace indexes := by
  induction indexes generalizing w with
  | nil => exact ⟨rfl, rfl⟩
  | cons index rest ih =>
    have hr := hexists index _ (elasticInitLoop_cons_head W index rest w)
    rcases hex : W.indexExists index w with ⟨r, w1⟩
    rw [hex] at hr
    have hr1 : r = .ok true := hr
    subst hr1
    have hbody := elasticInitBody_started W index w w1 hex
    rw [elasticInitLoop_cons_continue W index rest w w1 _ hbody] at hexists ⊢
    have hrest := ih w1 (fun i r hmem => hexists i r (by
      show Event.indexExists i r ∈ _ ++ (elasticInitLoop W rest w1).2.2
      exact List.mem_append.mpr (Or.inr hmem)))
    refine ⟨hrest.1, ?_⟩
    show _ ++ (elasticInitLoop W rest w1).2.2 = _
    rw [hrest.2]
    rfl

/-- A run of `elasticInit` whose client is obtained, in terms of its loop. -/
theorem elasticInit_run (W : World σ) (indexes : List String) (w w1 : σ)
    (hnew : W.newClient w = (none, w1)) :
    elasticInit W indexes w
      = (match (elasticInitLoop W indexes w1).1 with
          | some out => out
          | none => .ret none,
         (elasticInitLoop W indexes w1).2.1,
         Event.newClient none :: (elasticInitLoop W indexes w1).2.2) := by
  simp only [elasticInit, getElasticClient, hnew]
  rcases elasticInitLoop W indexes w1 with ⟨o, w2, evs⟩
  cases o <;> rfl

/-- A loop over `before ++ rest` whose passes over `before` all go on is the
loop over `rest` from the state those passes reach. -/
theorem elasticInitLoop_append (W : World σ) (before rest : List String) (w w1 : σ)
    (evs1 : List Event) (hbefore : elasticInitLoop W before w = (none, w1, evs1)) :
    elasticInitLoop W (before ++ rest) w
      = ((elasticInitLoop W rest w1).1, (elasticInitLoop W rest w1).2.1,
          evs1 ++ (elasticInitLoop W rest w1).2.2) := by
  induction before generalizing w evs1 with
  | nil =>
    simp only [elasticInitLoop, Prod.mk.injEq, true_and] at hbefore
    obtain ⟨hw, hev⟩ := hbefore
    subst hw
    subst hev
    simp
  | cons i bs ih =>
    rcases hbody : elasticInitBody W i w with ⟨o, wa, eva⟩
    cases o with
    | some out =>
      rw [elasticInitLoop_cons_stop W i bs w wa out eva hbody] at hbefore
      simp at hbefore
    | none =>
      rw [elasticInitLoop_cons_continue W i bs w wa eva hbody] at hbefore
      simp only [Prod.mk.injEq] at hbefore
      obtain ⟨h1, h2, h3⟩ := hbefore
      have hbs : elasticInitLoop W bs wa = (none, w1, (elasticInitLoop W bs wa).2.2) := by
        rw [← h1, ← h2]
      have hstep := ih wa _ hbs
      rw [List.cons_append, elasticInitLoop_cons_continue W i (bs ++ rest) w wa eva hbody,
        hstep, ← h3]
      simp

theorem createRequests_append (a b : List Event) :
    createRequests (a ++ b) = createRequests a ++ createRequests b := by
  induction a with
  | nil => rfl
  | cons e a1 ih =>
    cases e <;> simp [createRequests, ih]

theorem absentHead_no_create (index : String) : createRequests (absentHead index) = [] := rfl

/-- A loop pass issues create-index requests for its own index only. -/
theorem elasticInitBody_create_names (W : World σ) (index : String) (w : σ) :
    ∀ req ∈ createRequests (elasticInitBody W index w).2.2, req.1 = index := by
  rcases hex : W.indexExists index w with ⟨r, w1⟩
  rcases r with err | _ | _
  · rw [elasticInitBody_exists_error W index w w1 err hex]
    simp [createRequests]
  · rcases hload : loadMappingFile W index w1 with ⟨o, w2, ev2⟩
    have hc2 : createRequests ev2 = [] := by
      have h := loadMappingFile_no_create W index w1
      rw [hload] at h
      exact h
    rcases o with ⟨raw, _ | err⟩ | m | m
    · rcases hcreate : W.createIndex index (goString raw) w2 with ⟨rc, w3⟩
      rcases rc with err | res
      · rw [elasticInitBody_create_error W index w w1 w2 w3 raw err ev2 hex hload hcreate]
        simp [createRequests_append, absentHead_no_create, hc2, createRequests]
      · cases hack : res.acknowledged
        · rw [elasticInitBody_create_unacknowledged W index w w1 w2 w3 raw res ev2
            hex hload hcreate hack]
          simp [createRequests_append, absentHead_no_create, hc2, createRequests]
        · rw [elasticInitBody_created W index w w1 w2 w3 raw res ev2 hex hload hcreate hack]
          simp [createRequests_append, absentHead_no_create, hc2, createRequests]
    · rw [elasticInitBody_load_error W index w w1 w2 raw err ev2 hex hload]
      simp [createRequests_append, absentHead_no_create, hc2]
    · rw [elasticInitBody_load_fatal W index w w1 w2 m ev2 hex hload]
      simp [createRequests_append, absentHead_no_create, hc2]
    · rw [elasticInitBody_load_panic W index w w1 w2 m ev2 hex hload]
      simp [createRequests_append, absentHead_no_create, hc2]
  · rw [elasticInitBody_started W index w w1 hex]
    simp [createRequests]

/-- A loop issues create-index requests for indexes of its list only. -/
theorem elasticInitLoop_create_names (W : World σ) (indexes : List String) (w : σ) :
    ∀ req ∈ createRequests (elasticInitLoop W indexes w).2.2, req.1 ∈ indexes := by
  induction indexes generalizing w with
  | nil =>
    intro req hreq
    simp [elasticInitLoop, createRequests] at hreq
  | cons index rest ih =>
    have hb := elasticInitBody_create_names W index w
    rcases hbody : elasticInitBody W index w with ⟨o, w1, ev1⟩
    rw [hbody] at hb
    intro req hreq
    cases o with
    | some out =>
      rw [elasticInitLoop_cons_stop W index rest w w1 out ev1 hbody] at hreq
      simp [hb req hreq]
    | none =>
      rw [elasticInitLoop_cons_continue W index rest w w1 ev1 hbody] at hreq
      have hreq1 : req ∈ createRequests (ev1 ++ (elasticInitLoop W rest w1).2.2) := hreq
      rw [createRequests_append] at hreq1
      rcases List.mem_append.mp hreq1 with h | h
      · simp [hb req h]
      · exact List.mem_cons_of_mem _ (ih w1 req h)

/-- C2: in every run of `elasticInit`, a create-index request that fails or
whose response is not acknowledged is the last event of the run (no existence
query, mapping load or create-index request follows it, for any index), and the
run ends in `log.Fatalf` with the message "Error creating the index: ..." rather
than returning. -/
theorem elasticInit_create_rejected_fatal (W : World σ) (indexes : List String) (w : σ)
    (pre post : List Event) (index : String) (body : List Byte)
    (r : Except GoError IndicesCreateResult)
    (hsplit : (elasticInit W indexes w).2.2 = pre ++ Event.createIndex index body r :: post)
    (hrejected : createRejected r = true) :
    post = [] ∧
    (elasticInit W indexes w).1 = .fatal ("Error creating the index: " ++ rejectionText r) :=
  elasticInit_settled W indexes w pre (Event.createIndex index body r) post _ hsplit
    (by simp [Event.verdict, hrejected])

theorem elasticInit_create_rejected_fatal_witness :
    (elasticInit unackFixture.world ["books", "films"] []).2.2
      = [Event.newClient none,
          Event.indexExists "books" (.ok false),
          Event.stdout "Initializing Index [books] with mapping...",
          Event.stat "mapping_books.json" (.ok { isDir := false }),
          Event.readFile "mapping_books.json" (.ok [123, 10, 125, 10]),
          Event.createIndex "books" [123, 10, 125, 10]
            (.ok { acknowledged := false, shardsAcknowledged := false, index := "books" })] ∧
    (elasticInit unackFixture.world ["books", "films"] []).1
      = .fatal "Error creating the index: books" :=
  ⟨by rfl,
    (elasticInit_create_rejected_fatal unackFixture.world ["books", "films"] []
      [Event.newClient none,
        Event.indexExists "books" (.ok false),
        Event.stdout "Initializing Index [books] with mapping...",
        Event.stat "mapping_books.json" (.ok { isDir := false }),
        Event.readFile "mapping_books.json" (.ok [123, 10, 125, 10])]
      [] "books" [123, 10, 125, 10]
      (.ok { acknowledged := false, shardsAcknowledged := false, index := "books" })
      (by rfl) (by rfl)).2⟩

/-- C7: in every run of `elasticInit`, an existence query that fails with error
`err` is the last event of the run (no create-index request for that index and
no request for a later index follows), and `elasticInit` returns `err` to its
caller. -/
theorem elasticInit_exists_error_returned (W : World σ) (indexes : List String) (w : σ)
    (pre post : List Event) (index : String) (err : GoError)
    (hsplit : (elasticInit W indexes w).2.2
      = pre ++ Event.indexExists index (.error err) :: post) :
    post = [] ∧ (elasticInit W indexes w).1 = .ret (some err) :=
  elasticInit_settled W indexes w pre (Event.indexExists index (.error err)) post _ hsplit rfl

theorem elasticInit_exists_error_returned_witness :
    (elasticInit downFixture.world ["books", "films"] []).2.2
      = [Event.newClient none,
          Event.indexExists "books"
            (.error { msg := "connection refused", notExist := false })] ∧
    (elasticInit downFixture.world ["books", "films"] []).1
      = .ret (some { msg := "connection refused", notExist := false }) :=
  ⟨by rfl,
    (elasticInit_exists_error_returned downFixture.world ["books", "films"] []
      [Event.newClient none] [] "books" { msg := "connection refused", notExist := false }
      (by rfl)).2⟩

/-- C1: when the client is obtained and every existence query of the run is
answered "exists", `elasticInit` returns nil, issues no create-index request
and loads no mapping file: all it does is, per configured index in list order,
the existence query and the line "Index [name]: STARTED". -/
theorem elasticInit_idempotent (W : World σ) (indexes : List String) (w : σ)
    (hclient : (W.newClient w).1 = none)
    (hexists : ∀ index r, Event.indexExists index r ∈ (elasticInit W indexes w).2.2 →
      r = .ok true) :
    (elasticInit W indexes w).1 = .ret none ∧
    createRequests (elasticInit W indexes w).2.2 = [] ∧
    fileAccesses (elasticInit W indexes w).2.2 = [] ∧
    (elasticInit W indexes w).2.2 = Event.newClient none :: startedTrace indexes := by
  rcases hnew : W.newClient w with ⟨r, w1⟩
  rw [hnew] at hclient
  have hr : r = none := hclient
  subst hr
  have hrun := elasticInit_run W indexes w w1 hnew
  rw [hrun] at hexists ⊢
  have hloop := elasticInitLoop_all_exist W indexes w1 (fun i r hmem => hexists i r (by
    show Event.indexExists i r ∈ Event.newClient none :: (elasticInitLoop W indexes w1).2.2
    exact List.mem_cons_of_mem _ hmem))
  refine ⟨?_, ?_, ?_, ?_⟩
  · show (match (elasticInitLoop W indexes w1).1 with
          | some out => out
          | none => .ret none) = Outcome.ret none
    rw [hloop.1]
  · show createRequests (Event.newClient none :: (elasticInitLoop W indexes w1).2.2) = []
    rw [hloop.2]
    exact startedTrace_no_create indexes
  · show fileAccesses (Event.newClient none :: (elasticInitLoop W indexes w1).2.2) = []
    rw [hloop.2]
    exact startedTrace_no_file indexes
  · show Event.newClient none :: (elasticInitLoop W indexes w1).2.2 = _
    rw [hloop.2]

theorem elasticInit_idempotent_witness :
    (elasticInit booksFixture.world Indexes afterFirstRun).1 = .ret none ∧
    createRequests (elasticInit booksFixture.world Indexes afterFirstRun).2.2 = [] ∧
    fileAccesses (elasticInit booksFixture.world Indexes afterFirstRun).2.2 = [] ∧
    (elasticInit booksFixture.world Indexes afterFirstRun).2.2
      = Event.newClient none :: startedTrace Indexes :=
  elasticInit_idempotent booksFixture.world Indexes afterFirstRun (by rfl) (by
    intro index r hmem
    have htrace : (elasticInit booksFixture.world Indexes afterFirstRun).2.2
        = [Event.newClient none, Event.indexExists "books" (.ok true),
            Event.stdout "Index [books]: STARTED\n"] := by rfl
    rw [htrace] at hmem
    simp at hmem
    exact hmem.2)

/-- The loop pass that reaches the create-index request, in terms of the
program's own conversion `string(mapping)`. -/
theorem elasticInit_create_pass (W : World σ) (before after : List String) (index : String)
    (w w1 w2 w3 w4 : σ) (evs1 evsL : List Event) (mapping : Option (List Byte))
    (hclient : W.newClient w = (none, w1))
    (hbefore : elasticInitLoop W before w1 = (none, w2, evs1))
    (habsent : W.indexExists index w2 = (.ok false, w3))
    (hload : loadMappingFile W index w3 = (.ret (mapping, none), w4, evsL)) :
    (elasticInitBody W index w2).2.2
      = createPass index evsL (goString mapping)
          (W.createIndex index (goString mapping) w4).1 ∧
    createRequests (elasticInitBody W index w2).2.2 = [(index, goString mapping)] ∧
    (∃ tail, (elasticInit W (before ++ index :: after) w).2.2
      = Event.newClient none :: evs1 ++ (elasticInitBody W index w2).2.2 ++ tail) ∧
    (index ∉ before → index ∉ after →
      (createRequests (elasticInit W (before ++ index :: after) w).2.2).filter
        (fun req => decide (req.1 = index)) = [(index, goString mapping)]) ∧
    (∀ err w5, W.stat (ConfigFilenameTemplate index) w3 = (.error err, w5) →
      err.notExist = true → goString mapping = []) := by
  have hc1 : ∀ req ∈ createRequests evs1, req.1 ∈ before := by
    have h := elasticInitLoop_create_names W before w1
    rw [hbefore] at h
    exact h
  have hcL : createRequests evsL = [] := by
    have h := loadMappingFile_no_create W index w3
    rw [hload] at h
    exact h
  -- the pass for `index`
  have hpass : ∃ o w5, elasticInitBody W index w2
      = (o, w5, createPass index evsL (goString mapping)
          (W.createIndex index (goString mapping) w4).1) ∧
      (o = none ∨ ∃ out, o = some out) := by
    rcases hcreate : W.createIndex index (goString mapping) w4 with ⟨rc, w5⟩
    rcases rc with err | res
    · refine ⟨some (.fatal ("Error creating the index: " ++ err.msg)), w5, ?_,
        Or.inr ⟨_, rfl⟩⟩
      rw [elasticInitBody_create_error W index w2 w3 w4 w5 mapping err evsL habsent hload hcreate]
      simp [createPass, createRejected]
    · cases hack : res.acknowledged
      · refine ⟨some (.fatal ("Error creating the index: " ++ res.index)), w5, ?_,
          Or.inr ⟨_, rfl⟩⟩
        rw [elasticInitBody_create_unacknowledged W index w2 w3 w4 w5 mapping res evsL
          habsent hload hcreate hack]
        simp [createPass, createRejected, hack]
      · refine ⟨none, w5, ?_, Or.inl rfl⟩
        rw [elasticInitBody_created W index w2 w3 w4 w5 mapping res evsL
          habsent hload hcreate hack]
        simp [createPass, createRejected, hack]
  obtain ⟨o, w5, hbody, ho⟩ := hpass
  have hcp : createRequests (createPass index evsL (goString mapping)
      (W.createIndex index (goString mapping) w4).1) = [(index, goString mapping)] := by
    unfold createPass
    rw [createRequests_append, createRequests_append, absentHead_no_create, hcL]
    split <;> rfl
  -- the run, in terms of the loop over `index :: after`
  have hrun := elasticInit_run W (before ++ index :: after) w w1 hclient
  have happ := elasticInitLoop_append W before (index :: after) w1 w2 evs1 hbefore
  have htrace : (elasticInit W (before ++ index :: after) w).2.2
      = Event.newClient none :: (evs1 ++ (elasticInitLoop W (index :: after) w2).2.2) := by
    rw [hrun, happ]
  have htail : (elasticInitLoop W (index :: after) w2).2.2
        = (elasticInitBody W index w2).2.2 ++ [] ∨
      (elasticInitLoop W (index :: after) w2).2.2
        = (elasticInitBody W index w2).2.2 ++ (elasticInitLoop W after w5).2.2 := by
    rcases ho with rfl | ⟨out, rfl⟩
    · right
      rw [elasticInitLoop_cons_continue W index after w2 w5 _ hbody, hbody]
    · left
      rw [elasticInitLoop_cons_stop W index after w2 w5 out _ hbody, hbody]
      simp
  refine ⟨?_, ?_, ?_, ?_, ?_⟩
  · rw [hbody]
  · rw [hbody]
    exact hcp
  · rcases htail with h | h
    · exact ⟨[], by rw [htrace, h]; simp⟩
    · exact ⟨(elasticInitLoop W after w5).2.2, by rw [htrace, h]; simp⟩
  · intro hnb hna
    have hf1 : (createRequests evs1).filter (fun req => decide (req.1 = index)) = [] := by
      rw [List.filter_eq_nil_iff]
      intro req hreq
      have hin := hc1 req hreq
      simp only [decide_eq_true_eq]
      intro heq
      rw [heq] at hin
      exact hnb hin
    have hf2 : (createRequests (elasticInitLoop W after w5).2.2).filter
        (fun req => decide (req.1 = index)) = [] := by
      rw [List.filter_eq_nil_iff]
      intro req hreq
      have hin := elasticInitLoop_create_names W after w5 req hreq
      simp only [decide_eq_true_eq]
      intro heq
      rw [heq] at hin
      exact hna hin
    have hcons : createRequests (Event.newClient none ::
        (evs1 ++ (elasticInitLoop W (index :: after) w2).2.2))
        = createRequests (evs1 ++ (elasticInitLoop W (index :: after) w2).2.2) := rfl
    rw [htrace, hcons, createRequests_append, List.filter_append, hf1]
    rcases htail with h | h
    · rw [h, createRequests_append, hbody, hcp]
      simp [createRequests]
    · rw [h, createRequests_append, hbody, hcp, List.filter_append, hf2]
      simp
  · intro err w6 hstat hne
    have h := loadMappingFile_not_exist W index w3 w6 err hstat hne
    rw [h] at hload
    simp only [Prod.mk.injEq, Outcome.ret.injEq, and_true] at hload
    rw [← hload.1]
    rfl

/-- C9: take a run of `elasticInit` over `before ++ index :: after` in which the
client is obtained, the passes over `before` all go on, the service reports
`index` absent and the mapping load returns `mapping` with a nil error.  Then the
pass for `index` is: existence query, the "Initializing" line, the events of
the load, and one create-index request for `index`; when the load returned the
bytes `b` the body of that request is `b` itself, and when it returned a nil
slice the body is empty; that pass is part of the run; if `index` occurs once in
the list, it is the only create-index request for `index` in the whole run; and
when the file `"mapping_" ++ index ++ ".json"` does not exist the request is
still issued, with an empty body. -/
theorem elasticInit_create_body (W : World σ) (before after : List String) (index : String)
    (w w1 w2 w3 w4 : σ) (evs1 evsL : List Event) (mapping : Option (List Byte))
    (hclient : W.newClient w = (none, w1))
    (hbefore : elasticInitLoop W before w1 = (none, w2, evs1))
    (habsent : W.indexExists index w2 = (.ok false, w3))
    (hload : loadMappingFile W index w3 = (.ret (mapping, none), w4, evsL)) :
    (elasticInitBody W index w2).2.2
      = [Event.indexExists index (.ok false),
          Event.stdout ("Initializing Index [" ++ index ++ "] with mapping...")]
        ++ evsL ++
        Event.createIndex index (mapping.getD []) (W.createIndex index (mapping.getD []) w4).1
          :: (if createRejected (W.createIndex index (mapping.getD []) w4).1 then []
              else [Event.stdout "Index created successfully\n"]) ∧
    (∀ b, mapping = some b →
      createRequests (elasticInitBody W index w2).2.2 = [(index, b)]) ∧
    (mapping = none →
      createRequests (elasticInitBody W index w2).2.2 = [(index, [])]) ∧
    (∃ tail, (elasticInit W (before ++ index :: after) w).2.2
      = Event.newClient none :: evs1 ++ (elasticInitBody W index w2).2.2 ++ tail) ∧
    (index ∉ before → index ∉ after →
      (createRequests (elasticInit W (before ++ index :: after) w).2.2).filter
        (fun req => decide (req.1 = index)) = [(index, mapping.getD [])]) ∧
    (∀ err w5, W.stat ("mapping_" ++ index ++ ".json") w3 = (.error err, w5) →
      err.notExist = true →
      createRequests (elasticInitBody W index w2).2.2 = [(index, [])]) := by
  have hgs : goString mapping = mapping.getD [] := by
    cases mapping <;> rfl
  have h := elasticInit_create_pass W before after index w w1 w2 w3 w4 evs1 evsL mapping
    hclient hbefore habsent hload
  rw [hgs] at h
  obtain ⟨h1, h2, h3, h4, h5⟩ := h
  refine ⟨h1, ?_, ?_, h3, h4, ?_⟩
  · intro b hb
    rw [h2, hb]
    rfl
  · intro hnone
    rw [h2, hnone]
    rfl
  · intro err w5 hstat hne
    rw [h2, h5 err w5 hstat hne]

theorem elasticInit_create_body_witness :
    createRequests (elasticInitBody shelfFixture.world "bookshelf" ["films"]).2.2
      = [("bookshelf", [123, 34, 97, 34, 58, 49, 125, 10, 200])] ∧
    (createRequests (elasticInit shelfFixture.world ["films", "bookshelf"] []).2.2).filter
      (fun req => decide (req.1 = "bookshelf"))
      = [("bookshelf", [123, 34, 97, 34, 58, 49, 125, 10, 200])] ∧
    createRequests (elasticInit shelfFixture.world ["films", "bookshelf"] []).2.2
      = [("films", []), ("bookshelf", [123, 34, 97, 34, 58, 49, 125, 10, 200])] :=
  have h := elasticInit_create_body shelfFixture.world ["films"] [] "bookshelf"
    [] [] ["films"] ["films"] ["films"]
    [Event.indexExists "films" (.ok false),
      Event.stdout "Initializing Index [films] with mapping...",
      Event.stat "mapping_films.json"
        (.error { msg := "stat mapping_films.json: no such file or directory",
                  notExist := true }),
      Event.createIndex "films" []
        (.ok { acknowledged := true, shardsAcknowledged := true, index := "films" }),
      Event.stdout "Index created successfully\n"]
    [Event.stat "mapping_bookshelf.json" (.ok { isDir := false }),
     Event.readFile "mapping_bookshelf.json" (.ok [123, 34, 97, 34, 58, 49, 125, 10, 200])]
    (some [123, 34, 97, 34, 58, 49, 125, 10, 200]) (by rfl) (by rfl) (by rfl) (by rfl)
  ⟨h.2.1 [123, 34, 97, 34, 58, 49, 125, 10, 200] rfl,
    h.2.2.2.2.1 (by decide) (by decide), by rfl⟩

/-! ## The search runner -/

theorem stdoutLines_append (a b : List Event) :
    stdoutLines (a ++ b) = stdoutLines a ++ stdoutLines b := by
  induction a with
  | nil => rfl
  | cons e a1 ih => cases e <;> simp [stdoutLines, ih]

theorem stdoutLines_printHits {B : Type} (C : BookCodec B) (hits : List SearchHit) :
    stdoutLines (printHits C hits) = hits.map (hitLine C) := by
  induction hits with
  | nil => rfl
  | cons hit rest ih => simp [printHits, stdoutLines, ih]

theorem searchRequests_printHits {B : Type} (C : BookCodec B) (hits : List SearchHit) :
    searchRequests (printHits C hits) = [] := by
  induction hits with
  | nil => rfl
  | cons hit rest ih => simpa [printHits, searchRequests] using ih

theorem searchRequests_append (a b : List Event) :
    searchRequests (a ++ b) = searchRequests a ++ searchRequests b := by
  induction a with
  | nil => rfl
  | cons e a1 ih => cases e <;> simp [searchRequests, ih]

theorem printHits_stdout {B : Type} (C : BookCodec B) (hits : List SearchHit) (ev : Event)
    (hev : ev ∈ printHits C hits) : ∃ text, ev = Event.stdout text := by
  induction hits with
  | nil => cases hev
  | cons hit rest ih =>
    simp only [printHits, List.mem_cons] at hev
    rcases hev with h | h
    · exact ⟨_, h⟩
    · exact ih h

/-- A run of `searchElastic` in which a search succeeded with the hit list
`hits`: it returns, and its trace is the client, that one search, and the hit loop. -/
theorem searchElastic_of_success {B : Type} (C : BookCodec B) (W : World σ)
    (indexes : List String) (w : σ) (targets : List String) (q : Query) (pretty : Bool)
    (hits : List SearchHit)
    (hmem : Event.search targets q pretty (.ok hits) ∈ (searchElastic C W indexes w).2.2) :
    (searchElastic C W indexes w).1 = .ret () ∧
    (searchElastic C W indexes w).2.2
      = [Event.newClient none,
          Event.search indexes (Query.boolQuery shouldClause) true (.ok hits)]
        ++ printHits C hits := by
  rcases hnew : W.newClient w with ⟨r, w1⟩
  cases r with
  | some err =>
    have hrun : searchElastic C W indexes w
        = (.fatal ("Error creating the client: " ++ err.msg), w1,
            [Event.newClient (some err)]) := by
      simp [searchElastic, getElasticClient, hnew]
    rw [hrun] at hmem
    simp at hmem
  | none =>
    rcases hsearch : W.search indexes (Query.boolQuery shouldClause) true w1 with ⟨rs, w2⟩
    cases rs with
    | error err =>
      have hrun : searchElastic C W indexes w
          = (.fatal ("Error searching: " ++ err.msg), w2,
              [Event.newClient none] ++
                [Event.search indexes (Query.boolQuery shouldClause) true (.error err)]) := by
        simp [searchElastic, getElasticClient, hnew, hsearch]
      rw [hrun] at hmem
      simp at hmem
    | ok found =>
      have hrun : searchElastic C W indexes w
          = (.ret (), w2,
              [Event.newClient none,
                Event.search indexes (Query.boolQuery shouldClause) true (.ok found)]
              ++ printHits C found) := by
        simp [searchElastic, getElasticClient, hnew, hsearch]
      rw [hrun] at hmem ⊢
      have hfound : found = hits := by
        simp only [List.cons_append, List.nil_append, List.mem_cons] at hmem
        rcases hmem with h | h | h
        · cases h
        · cases h
          rfl
        · obtain ⟨text, htext⟩ := printHits_stdout C found _ h
          cases htext
      subst hfound
      exact ⟨rfl, rfl⟩

/-- The lines a run of `searchElastic` prints after a successful search. -/
theorem searchElastic_stdout {B : Type} (C : BookCodec B) (W : World σ)
    (indexes : List String) (w : σ) (targets : List String) (q : Query) (pretty : Bool)
    (hits : List SearchHit)
    (hmem : Event.search targets q pretty (.ok hits) ∈ (searchElastic C W indexes w).2.2) :
    stdoutLines (searchElastic C W indexes w).2.2 = hits.map (hitLine C) := by
  rw [(searchElastic_of_success C W indexes w targets q pretty hits hmem).2,
    stdoutLines_append, stdoutLines_printHits]
  rfl

/-- C6: after a successful search with hit list `hits`, `searchElastic` returns
and the lines it prints are, in the order of `hits` and one per hit, the
rendering of the record decoded from that hit: nothing is re-sorted, left out
or cut off, and the k-th line belongs to the k-th hit. -/
theorem searchElastic_lines_in_service_order {B : Type} (C : BookCodec B) (W : World σ)
    (indexes : List String) (w : σ) (targets : List String) (q : Query) (pretty : Bool)
    (hits : List SearchHit)
    (hmem : Event.search targets q pretty (.ok hits) ∈ (searchElastic C W indexes w).2.2) :
    (searchElastic C W indexes w).1 = .ret () ∧
    stdoutLines (searchElastic C W indexes w).2.2
      = hits.map (fun hit => C.format (C.unmarshal hit.source C.zero).1 ++ "\n") ∧
    (stdoutLines (searchElastic C W indexes w).2.2).length = hits.length ∧
    ∀ k : Nat, (stdoutLines (searchElastic C W indexes w).2.2)[k]?
      = (hits[k]?).map
          (fun (hit : SearchHit) => C.format (C.unmarshal hit.source C.zero).1 ++ "\n") := by
  have hlines := searchElastic_stdout C W indexes w targets q pretty hits hmem
  have hmap : hits.map (hitLine C)
      = hits.map (fun hit => C.format (C.unmarshal hit.source C.zero).1 ++ "\n") := rfl
  rw [hmap] at hlines
  refine ⟨(searchElastic_of_success C W indexes w targets q pretty hits hmem).1, hlines, ?_, ?_⟩
  · rw [hlines, List.length_map]
  · intro k
    rw [hlines, List.getElem?_map]

theorem searchElastic_lines_in_service_order_witness :
    (searchElastic sampleCodec mixedHitsFixture.world Indexes []).1 = .ret () ∧
    stdoutLines (searchElastic sampleCodec mixedHitsFixture.world Indexes []).2.2
      = ["\x7b Zachary Tanga\x7d\n", "\x7b \x7d\n", "\x7b \x7d\n"] :=
  have h := searchElastic_lines_in_service_order sampleCodec mixedHitsFixture.world Indexes []
    Indexes (Query.boolQuery shouldClause) true mixedHitsFixture.hits (by
      have htrace : (searchElastic sampleCodec mixedHitsFixture.world Indexes []).2.2
          = [Event.newClient none,
              Event.search Indexes (Query.boolQuery shouldClause) true
                (.ok mixedHitsFixture.hits)]
            ++ printHits sampleCodec mixedHitsFixture.hits := by rfl
      rw [htrace]
      simp)
  ⟨h.1, h.2.1.trans (by rfl)⟩

/-- C5 as stated fails: with a search that returns one hit whose source is
empty, the decode of that hit fails and `searchElastic` still prints a line for
it, the zero `Book`. -/
theorem searchElastic_prints_undecodable_hit :
    (sampleCodec.unmarshal [] sampleCodec.zero).2
      = some { msg := "unexpected end of JSON input", notExist := false } ∧
    (searchElastic sampleCodec badHitFixture.world Indexes []).2.2
      = [Event.newClient none,
          Event.search ["books"] (Query.boolQuery shouldClause) true (.ok [{ source := [] }]),
          Event.stdout "\x7b \x7d\n"] ∧
    stdoutLines (searchElastic sampleCodec badHitFixture.world Indexes []).2.2
      = ["\x7b \x7d\n"] := by
  refine ⟨by rfl, by rfl, by rfl⟩

/-- C5, amended: after a successful search, a hit whose source fails to decode
does not stop the run and is not left out: `searchElastic` returns, and between
the lines of the hits before it and the lines of the hits after it, it prints
one line for that hit, the rendering of the record the failed decode left. -/
theorem searchElastic_undecodable_hit_line {B : Type} (C : BookCodec B) (W : World σ)
    (indexes : List String) (w : σ) (targets : List String) (q : Query) (pretty : Bool)
    (before after : List SearchHit) (hit : SearchHit) (err : GoError)
    (hmem : Event.search targets q pretty (.ok (before ++ hit :: after))
      ∈ (searchElastic C W indexes w).2.2)
    (hfail : (C.unmarshal hit.source C.zero).2 = some err) :
    (searchElastic C W indexes w).1 = .ret () ∧
    (C.unmarshal hit.source C.zero).2 ≠ none ∧
    stdoutLines (searchElastic C W indexes w).2.2
      = before.map (fun h => C.format (C.unmarshal h.source C.zero).1 ++ "\n")
        ++ (C.format (C.unmarshal hit.source C.zero).1 ++ "\n")
        :: after.map (fun h => C.format (C.unmarshal h.source C.zero).1 ++ "\n") := by
  refine ⟨(searchElastic_of_success C W indexes w targets q pretty _ hmem).1, ?_, ?_⟩
  · rw [hfail]
    simp
  · rw [searchElastic_stdout C W indexes w targets q pretty _ hmem, List.map_append,
      List.map_cons]
    rfl

theorem searchElastic_undecodable_hit_line_witness :
    (searchElastic sampleCodec mixedHitsFixture.world Indexes []).1 = .ret () ∧
    (sampleCodec.unmarshal [] sampleCodec.zero).2 ≠ none ∧
    stdoutLines (searchElastic sampleCodec mixedHitsFixture.world Indexes []).2.2
      = ["\x7b Zachary Tanga\x7d\n"] ++ "\x7b \x7d\n" :: ["\x7b \x7d\n"] :=
  searchElastic_undecodable_hit_line sampleCodec mixedHitsFixture.world Indexes []
    Indexes (Query.boolQuery shouldClause) true
    [{ source := bytesOf "\x7b\"author\":\"Zachary Tanga\"\x7d" }] [{ source := bytesOf "\x7b\x7d" }]
    { source := [] } { msg := "unexpected end of JSON input", notExist := false }
    (by
      have htrace : (searchElastic sampleCodec mixedHitsFixture.world Indexes []).2.2
          = [Event.newClient none,
              Event.search Indexes (Query.boolQuery shouldClause) true
                (.ok mixedHitsFixture.hits)]
            ++ printHits sampleCodec mixedHitsFixture.hits := by rfl
      rw [htrace]
      simp [mixedHitsFixture])
    (by rfl)

/-- C10: a run of `searchElastic` that obtains its client issues exactly one
search request: over exactly the configured index list, in list order, with
the pretty flag set, and with a boolean query that has no must, must-not or
filter clause and exactly two should clauses, the match of field `author`
against "Guilherme Gonçalves" and the match of field `author` against
"Zachary Tanga"; a run that does not obtain its client issues none. -/
theorem searchElastic_request_shape {B : Type} (C : BookCodec B) (W : World σ)
    (indexes : List String) (w : σ) :
    searchRequests (searchElastic C W indexes w).2.2
      = (if (W.newClient w).1 = none then
          [(indexes,
            Query.boolQuery
              { mustClauses := [], mustNotClauses := [], filterClauses := [],
                shouldClauses :=
                  [Query.matchQuery { name := "author", text := "Guilherme Gonçalves" },
                   Query.matchQuery { name := "author", text := "Zachary Tanga" }] },
            true)]
        else []) := by
  rcases hnew : W.newClient w with ⟨r, w1⟩
  cases r with
  | some err =>
    simp [searchElastic, getElasticClient, hnew, searchRequests]
  | none =>
    rcases hsearch : W.search indexes (Query.boolQuery shouldClause) true w1 with ⟨rs, w2⟩
    cases rs with
    | error err =>
      simp [searchElastic, getElasticClient, hnew, hsearch, searchRequests]
      rfl
    | ok found =>
      simp [searchElastic, getElasticClient, hnew, hsearch, searchRequests,
        searchRequests_append, searchRequests_printHits]
      rfl

end ElasticResearch
